import Mathlib

/-!
Verification development for the block model and lighting engine of the
`all-is-cubes` voxel engine core.

Shallow embedding conventions:

* Rust `f32` color components are embedded as `ℚ`.  Every color computation
  the theorems below depend on (comparisons of alpha against the constants
  0 and 1, sums of at most 54 unit sky contributions followed by a division
  by the ray count, multiplication by the fixed-point unit 64 and a
  saturating cast to `u8`) is exact in `f32`, so the rational embedding
  agrees with the machine-float computation on all inputs considered here.
* Rust `u8` quantities (`PackedLightScalar`, resolutions) are embedded as
  `Nat`; the saturating `as u8` cast is modelled explicitly.
* `i32` grid coordinates (`GridCoordinate`) are embedded as `Int`.
* Fallible borrows (`URef::try_borrow`) return `Except RefError`.
* The recursive `Block::evaluate` is given an explicit fuel argument
  standing for the Rust call stack; `none` means the fuel ran out, which
  corresponds to non-termination of the Rust original on a cyclic chain of
  indirections.

Parts of the repository that are referenced by the verified modules but
whose source files are absent (`space.rs`, `raycast.rs`, `listen.rs`,
`universe.rs`) are modelled from the specification; each such definition
carries a doc comment starting with "Modelled from the spec".
-/

/-! ## Colors (from `src/all-is-cubes/src/math/color.rs`) -/

/-- Embedding of `RGB` from `math/color.rs`: a linear RGB color value with
components embedded as rationals. -/
structure Rgb where
  red : ℚ
  green : ℚ
  blue : ℚ
deriving DecidableEq, Repr

/-- Embedding of `RGBA` from `math/color.rs`. -/
structure Rgba where
  red : ℚ
  green : ℚ
  blue : ℚ
  alpha : ℚ
deriving DecidableEq, Repr

/-- Source: `RGB::ZERO`. -/
def Rgb.ZERO : Rgb := ⟨0, 0, 0⟩

/-- Source: `RGB::ONE`. -/
def Rgb.ONE : Rgb := ⟨1, 1, 1⟩

/-- Source: `impl Add<RGB> for RGB` (componentwise addition). -/
def Rgb.add (a b : Rgb) : Rgb := ⟨a.red + b.red, a.green + b.green, a.blue + b.blue⟩

instance : Add Rgb := ⟨Rgb.add⟩

/-- Source: `incoming_light / total_rays as f32` — division of a color by a
scalar ray count. -/
def Rgb.divNat (c : Rgb) (n : Nat) : Rgb := ⟨c.red / n, c.green / n, c.blue / n⟩

/-- Source: `Rgba::TRANSPARENT`. -/
def Rgba.TRANSPARENT : Rgba := ⟨0, 0, 0, 0⟩

/-- Source: `Rgba::fully_transparent`: alpha component of zero or less. -/
def Rgba.fully_transparent (c : Rgba) : Bool := decide (c.alpha ≤ 0)

/-- Source: `Rgba::fully_opaque`: alpha component of one or greater. -/
def Rgba.fully_opaque (c : Rgba) : Bool := decide (1 ≤ c.alpha)

/-! ## Packed light (from `src/all-is-cubes/src/lighting.rs`) -/

/-- Embedding of `PackedLight`: three `u8` fixed-point channels with unit 64.
Channel values are `Nat`s; all values constructed by the code lie in 0..255
because they come from the saturating `as u8` cast. -/
structure PackedLight where
  r : Nat
  g : Nat
  b : Nat
deriving DecidableEq, Repr

/-- Source: `PackedLight::UNIT = 64`. -/
def PackedLight.UNIT : Nat := 64

/-- Source: `PackedLight::INITIAL`, the light value for cubes of a newly
created `Space`. -/
def PackedLight.INITIAL : PackedLight := ⟨64, 64, 64⟩

/-- Source: `PackedLight::SKY`, light considered to exist outside the world;
defined in the source as equal to `INITIAL`. -/
def PackedLight.SKY : PackedLight := PackedLight.INITIAL

/-- The saturating float-to-`u8` cast `(x) as PackedLightScalar` used by
`From<RGB> for PackedLight`: negative values clamp to 0, values of 255 or
more clamp to 255, and the fractional part is truncated. -/
def ratToU8 (x : ℚ) : Nat := min 255 (max 0 ⌊x⌋).toNat

/-- Source: `impl From<RGB> for PackedLight` — each channel is multiplied by
the fixed-point unit and cast to `u8`. -/
def packRgb (c : Rgb) : PackedLight :=
  ⟨ratToU8 (c.red * 64), ratToU8 (c.green * 64), ratToU8 (c.blue * 64)⟩

/-- Source: `impl From<PackedLight> for RGB` — each channel divided by the
fixed-point unit. -/
def rgbOfPacked (p : PackedLight) : Rgb :=
  ⟨(p.r : ℚ) / 64, (p.g : ℚ) / 64, (p.b : ℚ) / 64⟩

/-- Source: the local helper `dm` inside `PackedLight::difference_magnitude`:
`a.max(b) - a.min(b)`. -/
def dmChan (a b : Nat) : Nat := max a b - min a b

/-- Source: `PackedLight::difference_magnitude` — per-channel maximum
absolute difference, in quantized units. -/
def differenceMagnitude (a b : PackedLight) : Nat :=
  max (dmChan a.r b.r) (max (dmChan a.g b.g) (dmChan a.b b.b))

/-! ## Grid geometry

The `Grid` type lives in `space.rs`, which is not among the provided
sources; it is modelled here from the specification and from how the
provided sources use it. -/

/-- Embedding of `GridPoint` (a `cgmath::Point3<i32>`). -/
abbrev GridPoint := Int × Int × Int

/-- Componentwise addition of grid points (used to model
`extract`/`translate` coordinate arithmetic). -/
def pAdd (p q : GridPoint) : GridPoint := (p.1 + q.1, p.2.1 + q.2.1, p.2.2 + q.2.2)

/-- Modelled from the spec: `Grid` (from the absent `space.rs`) — an axis
aligned 3D integer region given by its most negative corner and its
nonnegative sizes. -/
structure Grid where
  lower : GridPoint
  size : Nat × Nat × Nat

/-- Modelled from the spec: `Grid::contains_cube` — bounds check used by
`light_needs_update` ("if the cube is within the space's bounds"). -/
def Grid.containsCube (g : Grid) (p : GridPoint) : Bool :=
  decide (g.lower.1 ≤ p.1) && decide (p.1 < g.lower.1 + g.size.1) &&
  decide (g.lower.2.1 ≤ p.2.1) && decide (p.2.1 < g.lower.2.1 + g.size.2.1) &&
  decide (g.lower.2.2 ≤ p.2.2) && decide (p.2.2 < g.lower.2.2 + g.size.2.2)

/-- Modelled from the spec: `Grid::interior_iter` — the list of all cube
positions of the region (the source's own comment on `Block::evaluate`,
"TODO wrong test: we want to see if the _faces_ are all opaque but allow
hollows", confirms that this iterates the full volume and not only the
boundary). -/
def Grid.cubes (g : Grid) : List GridPoint :=
  (List.range g.size.1).flatMap fun (x : Nat) =>
    (List.range g.size.2.1).flatMap fun (y : Nat) =>
      (List.range g.size.2.2).map fun (z : Nat) =>
        (g.lower.1 + (x : Int), g.lower.2.1 + (y : Int), g.lower.2.2 + (z : Int))

/-! ## Block model (from `src/all-is-cubes/src/block.rs`) -/

/-- Embedding of `BlockAttributes`. -/
structure BlockAttributes where
  display_name : String
  selectable : Bool
  solid : Bool
  light_emission : Rgb
deriving DecidableEq, Repr

/-- Source: `DEFAULT_ATTRIBUTES`. -/
def DEFAULT_ATTRIBUTES : BlockAttributes :=
  { display_name := "", selectable := true, solid := true, light_emission := Rgb.ZERO }

/-- Embedding of `Block`.  `URef` references are embedded as `Nat` indices
into the universe's tables. -/
inductive Block where
  | Indirect (defRef : Nat)
  | Atom (attributes : BlockAttributes) (color : Rgba)
  | Recur (attributes : BlockAttributes) (offset : GridPoint) (resolution : Nat)
      (spaceRef : Nat)
deriving DecidableEq, Repr

/-- Embedding of `RefError` from the absent `universe.rs`: the spec's §7
error taxonomy — reference-not-found or borrow-conflict. -/
inductive RefError where
  | notFound
  | inUse
deriving DecidableEq, Repr

/-- Modelled from the spec: the per-cube data a `Space` exposes to
`Block::evaluate` through `extract(...)` — the cached evaluated color of
each sub-cube (`sub_block_data.evaluated().color`), total over coordinates
because out-of-bounds reads yield the `AIR` placeholder. -/
structure SpaceColors where
  colorAt : GridPoint → Rgba

/-- Modelled from the spec: a `BlockDef` entry as seen by evaluation — the
contained block (`def_ref.try_borrow()?.block`). -/
structure BlockDefEntry where
  block : Block

/-- Modelled from the spec: the `Universe` object store (absent
`universe.rs`) — tables of block definitions and spaces addressed by
handle, with a per-handle exclusive-borrow flag that makes `try_borrow`
fallible. -/
structure Universe where
  blockDefs : Nat → Option BlockDefEntry
  blockDefBorrowed : Nat → Bool
  spaces : Nat → Option SpaceColors
  spaceBorrowed : Nat → Bool

/-- Modelled from the spec: `URef<BlockDef>::try_borrow`, distinguishing
"not found" from "already exclusively borrowed". -/
def tryBorrowDef (u : Universe) (r : Nat) : Except RefError BlockDefEntry :=
  match u.blockDefs r with
  | none => .error .notFound
  | some d => if u.blockDefBorrowed r then .error .inUse else .ok d

/-- Modelled from the spec: `URef<Space>::try_borrow`. -/
def tryBorrowSpace (u : Universe) (r : Nat) : Except RefError SpaceColors :=
  match u.spaces r with
  | none => .error .notFound
  | some s => if u.spaceBorrowed r then .error .inUse else .ok s

/-- Embedding of `GridArray<RGBA>`: a grid together with the color stored at
each of its positions. -/
structure GridArray where
  grid : Grid
  values : GridPoint → Rgba

/-- Embedding of `EvaluatedBlock`.  The source field `opaque` is renamed
`isOpaque` because `opaque` is a Lean keyword. -/
structure EvaluatedBlock where
  attributes : BlockAttributes
  color : Rgba
  voxels : Option GridArray
  isOpaque : Bool
  visible : Bool

/-- Embedding of `Block::evaluate` (block.rs lines 69–119).  The fuel
argument bounds the depth of `Indirect` chains; `none` models the
non-termination of the Rust original on a cyclic chain.  For `Recur`, the
source builds `Grid::new(offset, (res, res, res))`, extracts the cached
evaluated color of every sub-cube, translates by `-offset`, and computes
`opaque` and `visible` with `interior_iter` over the whole translated
volume. -/
def evaluateB (u : Universe) : Nat → Block → Option (Except RefError EvaluatedBlock)
  | 0, _ => none
  | fuel + 1, b =>
    match b with
    | .Indirect r =>
      match tryBorrowDef u r with
      | .error e => some (.error e)
      | .ok d => evaluateB u fuel d.block
    | .Atom attrs color =>
      some (.ok ⟨attrs, color, none, Rgba.fully_opaque color, !Rgba.fully_transparent color⟩)
    | .Recur attrs off res sref =>
      match tryBorrowSpace u sref with
      | .error e => some (.error e)
      | .ok sp =>
        let r : Nat := max res 1
        let voxels : GridArray :=
          ⟨⟨(0, 0, 0), (r, r, r)⟩, fun p => sp.colorAt (pAdd p off)⟩
        some (.ok ⟨attrs, ⟨1/2, 1/2, 1/2, 1⟩, some voxels,
          voxels.grid.cubes.all fun p => Rgba.fully_opaque (voxels.values p),
          voxels.grid.cubes.any fun p => !Rgba.fully_transparent (voxels.values p)⟩)

/-- Convenience extractor: the `opaque` field of a successful evaluation. -/
def evalIsOpaque : Option (Except RefError EvaluatedBlock) → Option Bool
  | some (.ok e) => some e.isOpaque
  | _ => none

/-- Convenience extractor: the `visible` field of a successful evaluation. -/
def evalVisible : Option (Except RefError EvaluatedBlock) → Option Bool
  | some (.ok e) => some e.visible
  | _ => none

/-! ## Lighting engine (from `src/all-is-cubes/src/lighting.rs`) -/

/-- Embedding of `LightUpdateRequest`: a priority (a `PackedLightScalar`,
i.e. `u8`) and a cube coordinate. -/
structure LightUpdateRequest where
  priority : Nat
  cube : GridPoint
deriving DecidableEq, Repr

/-- Lexicographic strict order on cube coordinates, following the
`then_with` chain of `impl Ord for LightUpdateRequest`. -/
def cubeLexLt (p q : GridPoint) : Bool :=
  decide (p.1 < q.1) ||
    (decide (p.1 = q.1) &&
      (decide (p.2.1 < q.2.1) ||
        (decide (p.2.1 = q.2.1) && decide (p.2.2 < q.2.2))))

/-- Embedding of `impl Ord for LightUpdateRequest` as a strict order:
`a` is less than `b` when `a.priority < b.priority`, with ties broken by
the lexicographic coordinate order. -/
def reqLt (a b : LightUpdateRequest) : Bool :=
  decide (a.priority < b.priority) ||
    (decide (a.priority = b.priority) && cubeLexLt a.cube b.cube)

/-- Semantic model of `BinaryHeap::pop` for the lighting update queue: the
heap is modelled as the list of its elements, and `pop` removes and returns
a greatest element under the request order.  (`BinaryHeap` is a max-heap;
ties in the `Ord` instance can only occur between requests that are equal
as values, so which one is removed is unobservable.) -/
def popMax : List LightUpdateRequest → Option (LightUpdateRequest × List LightUpdateRequest)
  | [] => none
  | x :: xs =>
    match popMax xs with
    | none => some (x, [])
    | some (m, rest) => if reqLt x m then some (m, x :: rest) else some (x, xs)

/-- Embedding of a raycast step (from the absent `raycast.rs`): the cube the
ray has entered, and `previous_cube`, the cube it came from. -/
structure RaycastStep where
  cube : GridPoint
  prevCube : GridPoint
deriving DecidableEq, Repr

/-- The lighting-relevant projection of a cube's cached evaluated block, as
read by `Space::get_evaluated`: its `opaque` flag and light emission.
Modelled from the spec ("read accessors for a cube's current evaluated
block"); the accessor is total because out-of-bounds reads yield `AIR`. -/
structure EvaluatedLight where
  isOpaque : Bool
  light_emission : Rgb

/-- Embedding of the lighting-relevant state of a `Space` (struct declared
in the absent `space.rs`; the fields below are the ones the lighting module
uses).  `raycast` is the oracle modelling
`(*ray + cube_offset).cast().within_grid(grid)` from the absent
`raycast.rs`: for an origin cube, face index and ray index, the list of
steps the clipped ray takes through the grid. -/
structure LSpace where
  grid : Grid
  evaluated : GridPoint → EvaluatedLight
  lighting : GridPoint → PackedLight
  queue : List LightUpdateRequest
  queuedSet : List GridPoint
  notifications : List GridPoint
  raycast : GridPoint → Nat → Nat → List RaycastStep

/-- Modelled from the spec: `initialize_lighting` fills every grid entry
with `PackedLight::INITIAL`. -/
def initLighting : GridPoint → PackedLight := fun _ => PackedLight.INITIAL

/-- Embedding of `Space::light_needs_update` (lighting.rs lines 147–153):
push and mark only if the cube is in bounds and not already queued. -/
def lightNeedsUpdate (s : LSpace) (cube : GridPoint) (priority : Nat) : LSpace :=
  if s.grid.containsCube cube && !(s.queuedSet.contains cube) then
    { s with queue := ⟨priority, cube⟩ :: s.queue, queuedSet := cube :: s.queuedSet }
  else s

/-- The 54 ray paths consulted by one recompute: 6 faces times a 3×3 ray
pattern per face, in the iteration order of the `LIGHT_RAYS` loops. -/
def updateRayPaths (s : LSpace) (cube : GridPoint) : List (List RaycastStep) :=
  (List.range 6).flatMap fun f => (List.range 9).map fun r => s.raycast cube f r

/-- The inner `for hit in raycaster` loop of `update_lighting_now_on`:
walk the steps until one enters an opaque cube; return that hit's cube and
its `previous_cube`, or `none` if the ray exits the space. -/
def traceRayAux (s : LSpace) : List RaycastStep → Option (GridPoint × GridPoint)
  | [] => none
  | st :: rest =>
    if (s.evaluated st.cube).isOpaque then some (st.cube, st.prevCube)
    else traceRayAux s rest

/-- Accumulator of the ray loops in `update_lighting_now_on`:
`total_rays`, `incoming_light` and the `dependencies` vector. -/
structure RayAcc where
  totalRays : Nat
  incoming : Rgb
  deps : List GridPoint

/-- One iteration of the per-ray loop body: count the ray; if it strikes an
opaque cube, add that cube's light emission plus the previous cube's stored
light and record the previous cube (`light_cube`) as a dependency;
otherwise add the sky value. -/
def processRay (s : LSpace) (acc : RayAcc) (path : List RaycastStep) : RayAcc :=
  match traceRayAux s path with
  | some (hit, prev) =>
    { totalRays := acc.totalRays + 1,
      incoming := acc.incoming + ((s.evaluated hit).light_emission + rgbOfPacked (s.lighting prev)),
      deps := acc.deps ++ [prev] }
  | none =>
    { totalRays := acc.totalRays + 1,
      incoming := acc.incoming + rgbOfPacked PackedLight.SKY,
      deps := acc.deps }

/-- The ray-gathering phase of `update_lighting_now_on` for a non-opaque
origin cube: fold the loop body over all 54 rays. -/
def gatherRays (s : LSpace) (cube : GridPoint) : RayAcc :=
  (updateRayPaths s cube).foldl (processRay s) ⟨0, Rgb.ZERO, []⟩

/-- The accumulator produced by `update_lighting_now_on` before averaging:
an opaque origin cube is "always dark inside" and counts as a single
degenerate sample with no incoming light; otherwise the rays are cast. -/
def lightAcc (s : LSpace) (cube : GridPoint) : RayAcc :=
  if (s.evaluated cube).isOpaque then ⟨1, Rgb.ZERO, []⟩ else gatherRays s cube

/-- The local `new_light_value` of `update_lighting_now_on`: the averaged
incoming light, packed. -/
def newLightValue (s : LSpace) (cube : GridPoint) : PackedLight :=
  packRgb ((lightAcc s cube).incoming.divNat (lightAcc s cube).totalRays)

/-- The local `difference_magnitude` of `update_lighting_now_on`: the
quantized difference between the new and the stored light value. -/
def lightDiff (s : LSpace) (cube : GridPoint) : Nat :=
  differenceMagnitude (newLightValue s cube) (s.lighting cube)

/-- Embedding of `Space::update_lighting_now_on` (lighting.rs lines
175–232): average the samples, pack, compare with the stored value in
quantized units; on a nonzero difference store the new value, record a
lighting-change notification, and call `light_needs_update` on every
dependency with the difference magnitude as priority.  Returns the updated
space and the difference magnitude. -/
def updateLightingNowOn (s : LSpace) (cube : GridPoint) : LSpace × Nat :=
  if 0 < lightDiff s cube then
    ((lightAcc s cube).deps.foldl
      (fun st c => lightNeedsUpdate st c (lightDiff s cube))
      { s with lighting := fun c => if c = cube then newLightValue s cube else s.lighting c,
               notifications := s.notifications ++ [cube] },
     lightDiff s cube)
  else (s, lightDiff s cube)

/-- The drain loop of `Space::update_lighting_from_queue`, instrumented
with the list of processed requests paired with the difference magnitude
each produced.  The budget counts the remaining iterations; the loop stops
when it reaches zero (the source breaks once `light_update_count >= 120`)
or when the queue is empty. -/
def drainTrace : Nat → LSpace → LSpace × List (LightUpdateRequest × Nat)
  | 0, s => (s, [])
  | budget + 1, s =>
    match popMax s.queue with
    | none => (s, [])
    | some (req, rest) =>
      let s1 : LSpace := { s with queue := rest, queuedSet := s.queuedSet.erase req.cube }
      let p := updateLightingNowOn s1 req.cube
      let r := drainTrace budget p.1
      (r.1, (req, p.2) :: r.2)

/-- Embedding of `SpaceStepInfo` (the report returned by
`update_lighting_from_queue`). -/
structure SpaceStepInfo where
  light_update_count : Nat
  light_queue_count : Nat
  max_light_update_difference : Nat
deriving DecidableEq, Repr

/-- Embedding of `Space::update_lighting_from_queue` (lighting.rs lines
156–173): process at most 120 requests, reporting how many were processed,
how many remain queued, and the running maximum of the observed difference
magnitudes (starting from 0). -/
def updateLightingFromQueue (s : LSpace) : LSpace × SpaceStepInfo :=
  let r := drainTrace 120 s
  (r.1, ⟨r.2.length, r.1.queue.length, (r.2.map Prod.snd).foldl max 0⟩)

/-! ## BlockDef mutation episodes (from `src/all-is-cubes/src/block.rs`,
`BlockDef::modify` and `impl Drop for BlockDefMut`)

The `Notifier`/`Listener`/`Gate` machinery lives in the absent `listen.rs`
and is modelled from the spec (§3, §4.2): a notifier holds a set of
listeners and `notify` broadcasts one change token to each of them; a gate
is a revocable forwarding subscription. -/

/-- Observable events of one `BlockDef` mutation episode, in order:
rebuilding the forwarding subscription against a block (the
`Notifier::forwarder(...).gate()` / `block.listen(...)` / gate swap
sequence of `Drop for BlockDefMut`), and delivery of one change
notification to one direct listener (one element of the broadcast
performed by `notifier.notify(BlockChange::new())`). -/
inductive BlockDefEvent where
  | resubscribed (b : Block)
  | notified (l : Nat)
deriving DecidableEq, Repr

/-- Modelled from the spec: the state of a `BlockDef` relevant to change
notification — its current block and the direct listeners registered on
its notifier (listeners are identified by `Nat` tokens). -/
structure BlockDefM where
  block : Block
  listeners : List Nat

/-- Embedding of `impl Drop for BlockDefMut` (block.rs lines 398–409): on
release of the mutable-access handle, first rebuild the forwarding
subscription against the now-current inner block, then broadcast exactly
one change notification to each direct listener. -/
def dropBlockDefMut (d : BlockDefM) : BlockDefM × List BlockDefEvent :=
  (d, BlockDefEvent.resubscribed d.block :: d.listeners.map BlockDefEvent.notified)

/-- One complete mutation episode through `BlockDef::modify`: while the
handle is held the contained block is directly mutable (each field write is
a plain `DerefMut` access producing no events); dropping the handle runs
`Drop for BlockDefMut`. -/
def modifyEpisode (d : BlockDefM) (writes : List (Block → Block)) :
    BlockDefM × List BlockDefEvent :=
  dropBlockDefMut { d with block := writes.foldl (fun b f => f b) d.block }

/-! ## Helper lemmas and concrete instances for the block model -/

/-- Formalisation of the spec's words for claim C1: the voxels "on the
block's boundary" of an origin-based cubical volume of edge length `r` —
those cube positions having some coordinate at the volume's surface. -/
def specBoundaryCubes (r : Nat) : List GridPoint :=
  (Grid.mk (0, 0, 0) (r, r, r)).cubes.filter fun p =>
    decide (p.1 = 0) || decide (p.1 = (r : Int) - 1) ||
    decide (p.2.1 = 0) || decide (p.2.1 = (r : Int) - 1) ||
    decide (p.2.2 = 0) || decide (p.2.2 = (r : Int) - 1)

/-- A voxel space that is a hollow 3×3×3 shell: the center voxel is fully
transparent, every other voxel (including the whole boundary) is fully
opaque. -/
def hollowSpace : SpaceColors :=
  ⟨fun p => if p = ((1 : Int), (1 : Int), (1 : Int)) then Rgba.TRANSPARENT else ⟨0, 0, 0, 1⟩⟩

/-- A universe holding `hollowSpace` as space number 0, with nothing
borrowed. -/
def hollowU : Universe :=
  ⟨fun _ => none, fun _ => false, fun n => if n = 0 then some hollowSpace else none,
   fun _ => false⟩

/-- The recursive block of resolution 3 built from `hollowSpace`. -/
def hollowBlock : Block := .Recur DEFAULT_ATTRIBUTES (0, 0, 0) 3 0

/-- The origin cube belongs to every nonempty origin-based cubical grid. -/
theorem origin_mem_cubes (r : Nat) (hr : 0 < r) :
    ((0 : Int), (0 : Int), (0 : Int)) ∈ (Grid.mk (0, 0, 0) (r, r, r)).cubes := by
  have h0 : 0 ∈ List.range r := List.mem_range.mpr hr
  refine List.mem_flatMap.mpr ⟨0, h0, ?_⟩
  refine List.mem_flatMap.mpr ⟨0, h0, ?_⟩
  refine List.mem_map.mpr ⟨0, h0, ?_⟩
  simp

/-- An `all` over a grid's cubes restricts to its boundary sublist. -/
theorem all_cubes_to_boundary (r : Nat) (f : GridPoint → Bool)
    (h : ((Grid.mk (0, 0, 0) (r, r, r)).cubes.all f) = true) :
    ((specBoundaryCubes r).all f) = true := by
  rw [List.all_eq_true] at h ⊢
  intro p hp
  exact h p (List.mem_of_mem_filter hp)

/-- Claim C1 (corrected): for every `Recur` block whose evaluation succeeds,
the `opaque` field is true exactly when every voxel of the block's whole
extracted volume is fully opaque (so boundary opacity is necessary but not
sufficient), and `visible` is true exactly when some voxel is not fully
transparent. -/
theorem claim_C1_amended (u : Universe) (attrs : BlockAttributes) (off : GridPoint)
    (res sref fuel : Nat) (sp : SpaceColors)
    (h : tryBorrowSpace u sref = .ok sp) :
    ∃ e, evaluateB u (fuel + 1) (.Recur attrs off res sref) = some (.ok e) ∧
      e.isOpaque = ((Grid.mk (0, 0, 0) (max res 1, max res 1, max res 1)).cubes.all
        fun p => Rgba.fully_opaque (sp.colorAt (pAdd p off))) ∧
      e.visible = ((Grid.mk (0, 0, 0) (max res 1, max res 1, max res 1)).cubes.any
        fun p => !Rgba.fully_transparent (sp.colorAt (pAdd p off))) ∧
      (e.isOpaque = true →
        ((specBoundaryCubes (max res 1)).all
          fun p => Rgba.fully_opaque (sp.colorAt (pAdd p off))) = true) := by
  refine ⟨⟨attrs, ⟨1/2, 1/2, 1/2, 1⟩,
      some ⟨⟨(0, 0, 0), (max res 1, max res 1, max res 1)⟩, fun p => sp.colorAt (pAdd p off)⟩,
      ((Grid.mk (0, 0, 0) (max res 1, max res 1, max res 1)).cubes.all
        fun p => Rgba.fully_opaque (sp.colorAt (pAdd p off))),
      ((Grid.mk (0, 0, 0) (max res 1, max res 1, max res 1)).cubes.any
        fun p => !Rgba.fully_transparent (sp.colorAt (pAdd p off)))⟩, ?_, rfl, rfl, ?_⟩
  · simp only [evaluateB, h]
  · exact fun ho => all_cubes_to_boundary _ _ ho

/-- Claim C1, witness: the corrected statement evaluated on the hollow
3×3×3 block. -/
theorem claim_C1_amended_witness :
    ∃ e, evaluateB hollowU 1 hollowBlock = some (.ok e) ∧
      e.isOpaque = ((Grid.mk (0, 0, 0) (max 3 1, max 3 1, max 3 1)).cubes.all
        fun p => Rgba.fully_opaque (hollowSpace.colorAt (pAdd p (0, 0, 0)))) ∧
      e.visible = ((Grid.mk (0, 0, 0) (max 3 1, max 3 1, max 3 1)).cubes.any
        fun p => !Rgba.fully_transparent (hollowSpace.colorAt (pAdd p (0, 0, 0)))) ∧
      (e.isOpaque = true →
        ((specBoundaryCubes (max 3 1)).all
          fun p => Rgba.fully_opaque (hollowSpace.colorAt (pAdd p (0, 0, 0)))) = true) :=
  claim_C1_amended hollowU DEFAULT_ATTRIBUTES (0, 0, 0) 3 0 0 hollowSpace rfl

/-- Claim C1, counterexample to the claim as stated: the hollow 3×3×3 block
has every boundary voxel fully opaque, yet its evaluation yields
`opaque = false` (the code tests the whole volume, not the boundary). -/
theorem claim_C1_counterexample :
    ((specBoundaryCubes 3).all fun p => Rgba.fully_opaque (hollowSpace.colorAt p)) = true ∧
    evalIsOpaque (evaluateB hollowU 1 hollowBlock) = some false :=
  ⟨by decide, by decide⟩

/-- A universe whose block definition 0 holds an opaque atom; used by the
C7 and C10 witnesses. -/
def atomU : Universe :=
  ⟨fun n => if n = 0 then some ⟨.Atom DEFAULT_ATTRIBUTES ⟨0, 0, 0, 1⟩⟩ else none,
   fun _ => false, fun _ => none, fun _ => false⟩

/-- Claim C7: for every definition `d`, evaluating `Indirect(d)` returns
the same result as evaluating the block currently contained in `d`
(indirection is transparent to evaluation), provided the reference to `d`
can be borrowed.  The fuel of the outer call exceeds that of the inner
call by the one stack frame the delegation consumes. -/
theorem claim_C7 (u : Universe) (fuel r : Nat) (d : BlockDefEntry)
    (h : tryBorrowDef u r = .ok d) :
    evaluateB u (fuel + 1) (.Indirect r) = evaluateB u fuel d.block := by
  simp only [evaluateB, h]

/-- Claim C7, witness: indirection through definition 0 of `atomU`. -/
theorem claim_C7_witness :
    tryBorrowDef atomU 0 = .ok ⟨.Atom DEFAULT_ATTRIBUTES ⟨0, 0, 0, 1⟩⟩ ∧
    evaluateB atomU 2 (.Indirect 0) =
      evaluateB atomU 1 (.Atom DEFAULT_ATTRIBUTES ⟨0, 0, 0, 1⟩) :=
  ⟨rfl, claim_C7 atomU 1 0 ⟨.Atom DEFAULT_ATTRIBUTES ⟨0, 0, 0, 1⟩⟩ rfl⟩

/-- Claim C10: every successful evaluation with `opaque = true` also has
`visible = true`: an atom's alpha cannot be both at least 1 and at most 0,
and a recursive block's clamped resolution guarantees at least one voxel,
which being fully opaque is not fully transparent. -/
theorem claim_C10 (u : Universe) (fuel : Nat) (b : Block) (e : EvaluatedBlock)
    (he : evaluateB u fuel b = some (.ok e)) (ho : e.isOpaque = true) :
    e.visible = true := by
  induction fuel generalizing b with
  | zero => simp [evaluateB] at he
  | succ n ih =>
    cases b with
    | Indirect r =>
      simp only [evaluateB] at he
      cases h : tryBorrowDef u r with
      | error err => rw [h] at he; simp at he
      | ok d => rw [h] at he; exact ih d.block he
    | Atom attrs color =>
      simp only [evaluateB, Option.some.injEq, Except.ok.injEq] at he
      subst he
      simp only [Rgba.fully_opaque, decide_eq_true_eq] at ho
      simp only [Rgba.fully_transparent, Bool.not_eq_true', decide_eq_false_iff_not]
      intro hle
      linarith
    | Recur attrs off res sref =>
      simp only [evaluateB] at he
      cases h : tryBorrowSpace u sref with
      | error err => rw [h] at he; simp at he
      | ok sp =>
        rw [h] at he
        simp only [Option.some.injEq, Except.ok.injEq] at he
        subst he
        simp only at ho ⊢
        have hmem := origin_mem_cubes (max res 1)
          (Nat.lt_of_lt_of_le Nat.zero_lt_one (Nat.le_max_right res 1))
        rw [List.all_eq_true] at ho
        have hop := ho _ hmem
        rw [List.any_eq_true]
        refine ⟨_, hmem, ?_⟩
        simp only [Rgba.fully_opaque, decide_eq_true_eq] at hop
        simp only [Rgba.fully_transparent, Bool.not_eq_true', decide_eq_false_iff_not]
        intro hle
        linarith

/-- Claim C10, witness: the opaque atom of `atomU` evaluates with
`opaque = true` and therefore `visible = true`. -/
theorem claim_C10_witness :
    (⟨DEFAULT_ATTRIBUTES, ⟨0, 0, 0, 1⟩, none, Rgba.fully_opaque ⟨0, 0, 0, 1⟩,
      !Rgba.fully_transparent ⟨0, 0, 0, 1⟩⟩ : EvaluatedBlock).visible = true :=
  claim_C10 atomU 1 (.Atom DEFAULT_ATTRIBUTES ⟨0, 0, 0, 1⟩) _ rfl (by decide)

/-! ## Queue order and permutation lemmas -/

theorem reqLt_irrefl (a : LightUpdateRequest) : reqLt a a = false := by
  simp [reqLt, cubeLexLt]

theorem reqLt_trans {a b c : LightUpdateRequest} (h1 : reqLt a b = true)
    (h2 : reqLt b c = true) : reqLt a c = true := by
  simp only [reqLt, cubeLexLt, Bool.or_eq_true, Bool.and_eq_true, decide_eq_true_eq]
    at h1 h2 ⊢
  omega

theorem reqLt_total (a b : LightUpdateRequest) :
    reqLt a b = true ∨ reqLt b a = true ∨ a = b := by
  obtain ⟨pa, xa, ya, za⟩ := a
  obtain ⟨pb, xb, yb, zb⟩ := b
  simp only [reqLt, cubeLexLt, Bool.or_eq_true, Bool.and_eq_true, decide_eq_true_eq,
    LightUpdateRequest.mk.injEq, Prod.mk.injEq]
  omega

theorem popMax_eq_none {l : List LightUpdateRequest} (h : popMax l = none) : l = [] := by
  cases l with
  | nil => rfl
  | cons x xs =>
    simp only [popMax] at h
    split at h
    · exact absurd h (by simp)
    · split at h <;> exact absurd h (by simp)

theorem popMax_perm : ∀ {l : List LightUpdateRequest} {r rest},
    popMax l = some (r, rest) → l.Perm (r :: rest) := by
  intro l
  induction l with
  | nil => intro r rest h; simp [popMax] at h
  | cons x xs ih =>
    intro r rest h
    simp only [popMax] at h
    cases hx : popMax xs with
    | none =>
      rw [hx] at h
      obtain rfl := popMax_eq_none hx
      simp only [Option.some.injEq, Prod.mk.injEq] at h
      obtain ⟨rfl, rfl⟩ := h
      exact List.Perm.refl _
    | some pr =>
      obtain ⟨m, mrest⟩ := pr
      rw [hx] at h
      dsimp only at h
      by_cases hlt : reqLt x m = true
      · rw [if_pos hlt] at h
        simp only [Option.some.injEq, Prod.mk.injEq] at h
        obtain ⟨rfl, rfl⟩ := h
        exact ((ih hx).cons x).trans (List.Perm.swap m x mrest)
      · rw [if_neg hlt] at h
        simp only [Option.some.injEq, Prod.mk.injEq] at h
        obtain ⟨rfl, rfl⟩ := h
        exact List.Perm.refl _

theorem popMax_max : ∀ {l : List LightUpdateRequest} {r rest},
    popMax l = some (r, rest) → ∀ x ∈ l, reqLt r x = false := by
  intro l
  induction l with
  | nil => intro r rest h; simp [popMax] at h
  | cons x xs ih =>
    intro r rest h y hy
    simp only [popMax] at h
    cases hx : popMax xs with
    | none =>
      rw [hx] at h
      obtain rfl := popMax_eq_none hx
      simp only [Option.some.injEq, Prod.mk.injEq] at h
      obtain ⟨rfl, rfl⟩ := h
      rcases List.mem_singleton.mp hy with rfl
      exact reqLt_irrefl y
    | some pr =>
      obtain ⟨m, mrest⟩ := pr
      rw [hx] at h
      dsimp only at h
      by_cases hlt : reqLt x m = true
      · rw [if_pos hlt] at h
        simp only [Option.some.injEq, Prod.mk.injEq] at h
        obtain ⟨rfl, rfl⟩ := h
        rcases List.mem_cons.mp hy with rfl | hy2
        · cases hrx : reqLt m y
          · rfl
          · exact absurd (reqLt_trans hrx hlt) (by simp [reqLt_irrefl])
        · exact ih hx y hy2
      · rw [if_neg hlt] at h
        simp only [Option.some.injEq, Prod.mk.injEq] at h
        obtain ⟨rfl, rfl⟩ := h
        rcases List.mem_cons.mp hy with rfl | hy2
        · exact reqLt_irrefl y
        · cases hry : reqLt x y
          · rfl
          · rcases reqLt_total m x with hmx | hxm | heq
            · exact absurd (reqLt_trans hmx hry) (by simp [ih hx y hy2])
            · exact absurd hxm hlt
            · have hmy := ih hx y hy2
              rw [heq] at hmy
              simp [hmy] at hry

/-! ## The queue deduplication invariant (claim C3) -/

/-- The coordination invariant between the priority queue and the dedup
set: the queued cubes are pairwise distinct, the set holds exactly the
cubes of the queued requests, and the set itself has no duplicates. -/
def LInv (s : LSpace) : Prop :=
  (s.queue.map LightUpdateRequest.cube).Nodup ∧
  (∀ c, c ∈ s.queue.map LightUpdateRequest.cube ↔ c ∈ s.queuedSet) ∧
  s.queuedSet.Nodup

theorem lightNeedsUpdate_noop_of_mem (s : LSpace) (c : GridPoint) (p : Nat)
    (h : c ∈ s.queuedSet) : lightNeedsUpdate s c p = s := by
  have hc : s.queuedSet.contains c = true := by simpa using h
  unfold lightNeedsUpdate
  rw [hc]
  simp

theorem lightNeedsUpdate_noop_of_oob (s : LSpace) (c : GridPoint) (p : Nat)
    (h : s.grid.containsCube c = false) : lightNeedsUpdate s c p = s := by
  simp [lightNeedsUpdate, h]

theorem lightNeedsUpdate_push (s : LSpace) (c : GridPoint) (p : Nat)
    (hin : s.grid.containsCube c = true) (hns : c ∉ s.queuedSet) :
    lightNeedsUpdate s c p =
      { s with queue := ⟨p, c⟩ :: s.queue, queuedSet := c :: s.queuedSet } := by
  have hc : s.queuedSet.contains c = false := by simpa using hns
  unfold lightNeedsUpdate
  rw [hin, hc]
  simp

theorem LInv_enqueue (s : LSpace) (c : GridPoint) (p : Nat) (h : LInv s) :
    LInv (lightNeedsUpdate s c p) := by
  by_cases hin : s.grid.containsCube c = true
  · by_cases hset : c ∈ s.queuedSet
    · rw [lightNeedsUpdate_noop_of_mem s c p hset]; exact h
    · rw [lightNeedsUpdate_push s c p hin hset]
      obtain ⟨h1, h2, h3⟩ := h
      refine ⟨?_, ?_, List.nodup_cons.mpr ⟨hset, h3⟩⟩
      · exact List.nodup_cons.mpr ⟨fun hc => hset ((h2 c).mp hc), h1⟩
      · intro c2
        simp only [List.map_cons, List.mem_cons]
        rw [h2 c2]
  · rw [lightNeedsUpdate_noop_of_oob s c p (by simpa using hin)]
    exact h

theorem LInv_foldl_enqueue (deps : List GridPoint) (d : Nat) :
    ∀ s, LInv s → LInv (deps.foldl (fun st c => lightNeedsUpdate st c d) s) := by
  induction deps with
  | nil => intro s h; exact h
  | cons a as ih => intro s h; exact ih _ (LInv_enqueue s a d h)

theorem LInv_update (s : LSpace) (cube : GridPoint) (h : LInv s) :
    LInv (updateLightingNowOn s cube).1 := by
  unfold updateLightingNowOn
  split
  · exact LInv_foldl_enqueue _ _ _ h
  · exact h

theorem LInv_pop (s : LSpace) (r : LightUpdateRequest) (rest : List LightUpdateRequest)
    (hp : popMax s.queue = some (r, rest)) (h : LInv s) :
    LInv { s with queue := rest, queuedSet := s.queuedSet.erase r.cube } := by
  obtain ⟨h1, h2, h3⟩ := h
  have hmapperm : (s.queue.map LightUpdateRequest.cube).Perm
      (r.cube :: rest.map LightUpdateRequest.cube) := by
    simpa using (popMax_perm hp).map LightUpdateRequest.cube
  have h1c : (r.cube :: rest.map LightUpdateRequest.cube).Nodup := hmapperm.nodup h1
  have hhead : r.cube ∉ rest.map LightUpdateRequest.cube := (List.nodup_cons.mp h1c).1
  have htail : (rest.map LightUpdateRequest.cube).Nodup := (List.nodup_cons.mp h1c).2
  refine ⟨htail, ?_, h3.erase _⟩
  intro c
  by_cases hc : c = r.cube
  · subst hc
    constructor
    · intro hmem; exact absurd hmem hhead
    · intro hmem; exact absurd hmem h3.not_mem_erase
  · rw [List.mem_erase_of_ne hc]
    have hx : c ∈ rest.map LightUpdateRequest.cube ↔
        c ∈ s.queue.map LightUpdateRequest.cube := by
      rw [hmapperm.mem_iff]
      simp [List.mem_cons, hc]
    rw [hx, h2 c]

theorem LInv_drain : ∀ (budget : Nat) (s : LSpace), LInv s → LInv (drainTrace budget s).1 := by
  intro budget
  induction budget with
  | zero => intro s h; exact h
  | succ b ih =>
    intro s h
    simp only [drainTrace]
    cases hp : popMax s.queue with
    | none => exact h
    | some pr =>
      obtain ⟨req, rest⟩ := pr
      exact ih _ (LInv_update _ _ (LInv_pop s req rest hp h))

/-- The number of queue entries for a given cube. -/
def countCube (c : GridPoint) (l : List LightUpdateRequest) : Nat :=
  (l.filter fun r => decide (r.cube = c)).length

theorem countCube_cons (c : GridPoint) (x : LightUpdateRequest)
    (l : List LightUpdateRequest) :
    countCube c (x :: l) = (if x.cube = c then 1 else 0) + countCube c l := by
  by_cases hx : x.cube = c
  · simp [countCube, List.filter_cons, hx, Nat.add_comm]
  · simp [countCube, List.filter_cons, hx]

theorem countCube_eq_zero (c : GridPoint) (l : List LightUpdateRequest)
    (h : c ∉ l.map LightUpdateRequest.cube) : countCube c l = 0 := by
  induction l with
  | nil => rfl
  | cons x xs ih =>
    simp only [List.map_cons, List.mem_cons] at h
    push_neg at h
    rw [countCube_cons, if_neg (fun hc => h.1 hc.symm), ih h.2]

theorem countCube_eq_one (c : GridPoint) (l : List LightUpdateRequest)
    (hn : (l.map LightUpdateRequest.cube).Nodup) (hm : c ∈ l.map LightUpdateRequest.cube) :
    countCube c l = 1 := by
  induction l with
  | nil => simp at hm
  | cons x xs ih =>
    simp only [List.map_cons] at hn hm
    have hhead := (List.nodup_cons.mp hn).1
    have htail := (List.nodup_cons.mp hn).2
    rcases List.mem_cons.mp hm with rfl | hm2
    · rw [countCube_cons, if_pos rfl,
        countCube_eq_zero _ _ hhead]
    · have hne : x.cube ≠ c := fun hc => hhead (by rw [hc]; exact hm2)
      rw [countCube_cons, if_neg hne, ih htail hm2]

/-- Claim C3: the queue/dedup-set coordination invariant is preserved by
every operation; `light_needs_update` on an already-queued or out-of-bounds
cube is a no-op; enqueuing the same in-bounds cube twice yields exactly one
queue entry; and draining a request removes its cube from the queued set. -/
theorem claim_C3 (s : LSpace) (h : LInv s) (c : GridPoint) (p p2 : Nat) :
    (c ∈ s.queuedSet → lightNeedsUpdate s c p = s) ∧
    (s.grid.containsCube c = false → lightNeedsUpdate s c p = s) ∧
    (s.grid.containsCube c = true →
      countCube c (lightNeedsUpdate (lightNeedsUpdate s c p) c p2).queue = 1) ∧
    LInv (lightNeedsUpdate s c p) ∧
    (∀ r rest, popMax s.queue = some (r, rest) →
      r.cube ∉ s.queuedSet.erase r.cube) ∧
    LInv (updateLightingFromQueue s).1 := by
  obtain ⟨h1, h2, h3⟩ := h
  refine ⟨fun hm => lightNeedsUpdate_noop_of_mem s c p hm,
          fun ho => lightNeedsUpdate_noop_of_oob s c p ho,
          ?_, LInv_enqueue s c p ⟨h1, h2, h3⟩,
          fun r rest _ => h3.not_mem_erase,
          LInv_drain 120 s ⟨h1, h2, h3⟩⟩
  intro hin
  by_cases hset : c ∈ s.queuedSet
  · rw [lightNeedsUpdate_noop_of_mem s c p hset,
      lightNeedsUpdate_noop_of_mem s c p2 hset]
    exact countCube_eq_one c s.queue h1 ((h2 c).mpr hset)
  · rw [lightNeedsUpdate_push s c p hin hset]
    rw [lightNeedsUpdate_noop_of_mem _ c p2 (List.mem_cons_self c s.queuedSet)]
    rw [countCube_cons, if_pos rfl,
      countCube_eq_zero c s.queue (fun hmem => hset ((h2 c).mp hmem))]

/-- An empty-queue, all-transparent 2×1×1 space used as a concrete instance
by several witnesses. -/
def calmBase : LSpace :=
  { grid := ⟨(0, 0, 0), (2, 1, 1)⟩,
    evaluated := fun _ => ⟨false, Rgb.ZERO⟩,
    lighting := initLighting,
    queue := [], queuedSet := [], notifications := [],
    raycast := fun _ _ _ => [] }

/-- Claim C3, witness: the conjunction instantiated at the empty space. -/
theorem claim_C3_witness :
    (((0 : Int), (0 : Int), (0 : Int)) ∈ calmBase.queuedSet →
      lightNeedsUpdate calmBase (0, 0, 0) 1 = calmBase) ∧
    (calmBase.grid.containsCube (0, 0, 0) = false →
      lightNeedsUpdate calmBase (0, 0, 0) 1 = calmBase) ∧
    (calmBase.grid.containsCube (0, 0, 0) = true →
      countCube (0, 0, 0)
        (lightNeedsUpdate (lightNeedsUpdate calmBase (0, 0, 0) 1) (0, 0, 0) 2).queue = 1) ∧
    LInv (lightNeedsUpdate calmBase (0, 0, 0) 1) ∧
    (∀ r rest, popMax calmBase.queue = some (r, rest) →
      r.cube ∉ calmBase.queuedSet.erase r.cube) ∧
    LInv (updateLightingFromQueue calmBase).1 :=
  claim_C3 calmBase ⟨by simp [calmBase], fun c => by simp [calmBase], by simp [calmBase]⟩
    (0, 0, 0) 1 2

/-! ## The drain batch bound and report exactness (claim C4) -/

theorem drainTrace_length_le : ∀ (budget : Nat) (s : LSpace),
    (drainTrace budget s).2.length ≤ budget := by
  intro budget
  induction budget with
  | zero => intro s; simp [drainTrace]
  | succ b ih =>
    intro s
    simp only [drainTrace]
    cases hp : popMax s.queue with
    | none => simp
    | some pr =>
      obtain ⟨req, rest⟩ := pr
      simpa using ih _

theorem le_foldl_max (l : List Nat) : ∀ (a : Nat), a ≤ l.foldl max a ∧
    ∀ x ∈ l, x ≤ l.foldl max a := by
  induction l with
  | nil => intro a; exact ⟨Nat.le_refl a, by simp⟩
  | cons x xs ih =>
    intro a
    refine ⟨?_, ?_⟩
    · exact le_trans (Nat.le_max_left a x) (ih (max a x)).1
    · intro y hy
      rcases List.mem_cons.mp hy with rfl | hy2
      · exact le_trans (Nat.le_max_right a y) (ih (max a y)).1
      · exact (ih (max a x)).2 y hy2

theorem foldl_max_mem (l : List Nat) : ∀ (a : Nat),
    l.foldl max a = a ∨ l.foldl max a ∈ l := by
  induction l with
  | nil => intro a; exact .inl rfl
  | cons x xs ih =>
    intro a
    rcases ih (max a x) with h | h
    · rcases max_choice a x with hm | hm
      · rw [List.foldl_cons, h, hm]; exact .inl rfl
      · rw [List.foldl_cons, h, hm]; exact .inr (List.mem_cons_self x xs)
    · exact .inr (List.mem_cons.mpr (.inr (by rw [List.foldl_cons]; exact h)))

/-- Claim C4: one call to `update_lighting_from_queue` processes at most
120 requests, and the returned report gives the exact number processed, the
exact number of requests remaining in the queue on return, and the largest
quantized difference observed among the processed cubes (0 when none was
processed). -/
theorem claim_C4 (s : LSpace) :
    (updateLightingFromQueue s).2.light_update_count ≤ 120 ∧
    (updateLightingFromQueue s).2.light_update_count = (drainTrace 120 s).2.length ∧
    (updateLightingFromQueue s).2.light_queue_count =
      (updateLightingFromQueue s).1.queue.length ∧
    (∀ pr ∈ (drainTrace 120 s).2,
      pr.2 ≤ (updateLightingFromQueue s).2.max_light_update_difference) ∧
    ((updateLightingFromQueue s).2.max_light_update_difference = 0 ∨
      ∃ pr ∈ (drainTrace 120 s).2,
        pr.2 = (updateLightingFromQueue s).2.max_light_update_difference) := by
  refine ⟨drainTrace_length_le 120 s, rfl, rfl, ?_, ?_⟩
  · intro pr hpr
    exact (le_foldl_max ((drainTrace 120 s).2.map Prod.snd) 0).2 pr.2
      (List.mem_map.mpr ⟨pr, hpr, rfl⟩)
  · rcases foldl_max_mem ((drainTrace 120 s).2.map Prod.snd) 0 with h | h
    · exact .inl h
    · obtain ⟨pr, hpr, hval⟩ := List.mem_map.mp h
      exact .inr ⟨pr, hpr, hval⟩

/-- Claim C4, witness: the report statement instantiated at the empty
space. -/
theorem claim_C4_witness :
    (updateLightingFromQueue calmBase).2.light_update_count ≤ 120 ∧
    (updateLightingFromQueue calmBase).2.light_update_count =
      (drainTrace 120 calmBase).2.length ∧
    (updateLightingFromQueue calmBase).2.light_queue_count =
      (updateLightingFromQueue calmBase).1.queue.length ∧
    (∀ pr ∈ (drainTrace 120 calmBase).2,
      pr.2 ≤ (updateLightingFromQueue calmBase).2.max_light_update_difference) ∧
    ((updateLightingFromQueue calmBase).2.max_light_update_difference = 0 ∨
      ∃ pr ∈ (drainTrace 120 calmBase).2,
        pr.2 = (updateLightingFromQueue calmBase).2.max_light_update_difference) :=
  claim_C4 calmBase

/-! ## Sky propagation in spaces without opaque blocks (claim C9) -/

theorem traceRayAux_eq_none (s : LSpace)
    (h : ∀ c, (s.evaluated c).isOpaque = false) :
    ∀ path, traceRayAux s path = none := by
  intro path
  induction path with
  | nil => rfl
  | cons st rest ih => rw [traceRayAux, h st.cube]; simpa using ih

theorem processRay_sky (s : LSpace) (h : ∀ c, (s.evaluated c).isOpaque = false)
    (acc : RayAcc) (path : List RaycastStep) :
    processRay s acc path =
      ⟨acc.totalRays + 1, acc.incoming + rgbOfPacked PackedLight.SKY, acc.deps⟩ := by
  rw [processRay, traceRayAux_eq_none s h path]

theorem skyRgb_eq : rgbOfPacked PackedLight.SKY = ⟨1, 1, 1⟩ := by
  simp only [rgbOfPacked, PackedLight.SKY, PackedLight.INITIAL]
  norm_num

@[simp] theorem Rgb.add_red (a b : Rgb) : (a + b).red = a.red + b.red := rfl

@[simp] theorem Rgb.add_green (a b : Rgb) : (a + b).green = a.green + b.green := rfl

@[simp] theorem Rgb.add_blue (a b : Rgb) : (a + b).blue = a.blue + b.blue := rfl

theorem foldl_processRay_sky (s : LSpace)
    (h : ∀ c, (s.evaluated c).isOpaque = false) :
    ∀ (paths : List (List RaycastStep)) (acc : RayAcc),
      paths.foldl (processRay s) acc =
        ⟨acc.totalRays + paths.length,
         ⟨acc.incoming.red + paths.length, acc.incoming.green + paths.length,
          acc.incoming.blue + paths.length⟩,
         acc.deps⟩ := by
  intro paths
  induction paths with
  | nil => intro acc; simp
  | cons p ps ih =>
    intro acc
    rw [List.foldl_cons, processRay_sky s h acc p, ih, skyRgb_eq]
    simp only [RayAcc.mk.injEq, Rgb.mk.injEq, List.length_cons, and_true,
      Rgb.add_red, Rgb.add_green, Rgb.add_blue]
    refine ⟨by omega, by push_cast; ring, by push_cast; ring, by push_cast; ring⟩

theorem updateRayPaths_length (s : LSpace) (cube : GridPoint) :
    (updateRayPaths s cube).length = 54 := by
  simp only [updateRayPaths, List.length_flatMap, List.map_map, Function.comp_def,
    List.length_map, List.length_range]
  decide

theorem gatherRays_sky (s : LSpace) (h : ∀ c, (s.evaluated c).isOpaque = false)
    (cube : GridPoint) : gatherRays s cube = ⟨54, ⟨54, 54, 54⟩, []⟩ := by
  rw [gatherRays, foldl_processRay_sky s h, updateRayPaths_length]
  simp [Rgb.ZERO]

theorem pack_54_div_54 : packRgb (Rgb.divNat ⟨54, 54, 54⟩ 54) = PackedLight.INITIAL := by
  simp only [packRgb, Rgb.divNat, ratToU8, PackedLight.INITIAL]
  norm_num
  decide

theorem differenceMagnitude_self (a : PackedLight) : differenceMagnitude a a = 0 := by
  simp [differenceMagnitude, dmChan]

theorem updateLightingNowOn_snd (s : LSpace) (cube : GridPoint) :
    (updateLightingNowOn s cube).2 = lightDiff s cube := by
  rw [updateLightingNowOn]
  split <;> rfl

theorem update_of_diff_zero (s : LSpace) (cube : GridPoint)
    (h : lightDiff s cube = 0) : updateLightingNowOn s cube = (s, 0) := by
  rw [updateLightingNowOn, h]
  simp

theorem update_calm (s : LSpace) (cube : GridPoint)
    (hop : ∀ c, (s.evaluated c).isOpaque = false)
    (hl : s.lighting cube = PackedLight.INITIAL) :
    updateLightingNowOn s cube = (s, 0) := by
  have hnew : newLightValue s cube = PackedLight.INITIAL := by
    rw [newLightValue, lightAcc, if_neg (by rw [hop cube]; simp), gatherRays_sky s hop]
    exact pack_54_div_54
  exact update_of_diff_zero s cube
    (by rw [lightDiff, hnew, hl, differenceMagnitude_self])

theorem drainTrace_none (b : Nat) (s : LSpace) (hp : popMax s.queue = none) :
    drainTrace b s = (s, []) := by
  cases b with
  | zero => rfl
  | succ b2 => rw [drainTrace, hp]

theorem drainTrace_succ (b : Nat) (s : LSpace) (req : LightUpdateRequest)
    (rest : List LightUpdateRequest) (hp : popMax s.queue = some (req, rest)) :
    drainTrace (b + 1) s =
      ((drainTrace b (updateLightingNowOn
          { s with queue := rest, queuedSet := s.queuedSet.erase req.cube } req.cube).1).1,
       (req, (updateLightingNowOn
          { s with queue := rest, queuedSet := s.queuedSet.erase req.cube } req.cube).2) ::
       (drainTrace b (updateLightingNowOn
          { s with queue := rest, queuedSet := s.queuedSet.erase req.cube } req.cube).1).2) := by
  rw [drainTrace, hp]

theorem drain_calm : ∀ (budget : Nat) (s : LSpace),
    (∀ c, (s.evaluated c).isOpaque = false) →
    (∀ c, s.lighting c = PackedLight.INITIAL) →
    (drainTrace budget s).1.lighting = s.lighting ∧
    (drainTrace budget s).1.evaluated = s.evaluated := by
  intro budget
  induction budget with
  | zero => intro s _ _; exact ⟨rfl, rfl⟩
  | succ b ih =>
    intro s hop hl
    cases hp : popMax s.queue with
    | none => rw [drainTrace_none _ _ hp]; exact ⟨rfl, rfl⟩
    | some pr =>
      obtain ⟨req, rest⟩ := pr
      rw [drainTrace_succ b s req rest hp]
      rw [update_calm { s with queue := rest, queuedSet := s.queuedSet.erase req.cube }
        req.cube (fun c => hop c) (hl req.cube)]
      exact ih _ (fun c => hop c) (fun c => hl c)

/-- Claim C9: in a space with no opaque blocks, every ray exits the space
and contributes the sky value, so a single drain call leaves every cube's
stored light at the constant sky value, which is also the packed initial
value of every light buffer entry. -/
theorem claim_C9 (s : LSpace)
    (hop : ∀ c, (s.evaluated c).isOpaque = false)
    (hl : ∀ c, s.lighting c = PackedLight.INITIAL) :
    (∀ acc path, processRay s acc path =
      ⟨acc.totalRays + 1, acc.incoming + rgbOfPacked PackedLight.SKY, acc.deps⟩) ∧
    (∀ c, (updateLightingFromQueue s).1.lighting c = PackedLight.INITIAL) ∧
    packRgb (rgbOfPacked PackedLight.SKY) = PackedLight.SKY ∧
    (∀ c, initLighting c = PackedLight.SKY) := by
  refine ⟨processRay_sky s hop, ?_, ?_, fun c => rfl⟩
  · intro c
    have hd := drain_calm 120 s hop hl
    show (drainTrace 120 s).1.lighting c = PackedLight.INITIAL
    rw [hd.1, hl c]
  · rw [skyRgb_eq]
    simp only [packRgb, ratToU8, PackedLight.SKY, PackedLight.INITIAL]
    norm_num
    decide

/-- An all-transparent 2×1×1 space with one queued request, for the C9
witness. -/
def skySpace : LSpace :=
  { grid := ⟨(0, 0, 0), (2, 1, 1)⟩,
    evaluated := fun _ => ⟨false, Rgb.ZERO⟩,
    lighting := initLighting,
    queue := [⟨255, (0, 0, 0)⟩], queuedSet := [(0, 0, 0)], notifications := [],
    raycast := fun _ _ _ => [] }

/-- Claim C9, witness: the sky statement instantiated at `skySpace`. -/
theorem claim_C9_witness :
    (∀ acc path, processRay skySpace acc path =
      ⟨acc.totalRays + 1, acc.incoming + rgbOfPacked PackedLight.SKY, acc.deps⟩) ∧
    (∀ c, (updateLightingFromQueue skySpace).1.lighting c = PackedLight.INITIAL) ∧
    packRgb (rgbOfPacked PackedLight.SKY) = PackedLight.SKY ∧
    (∀ c, initLighting c = PackedLight.SKY) :=
  claim_C9 skySpace (fun c => rfl) (fun c => rfl)

/-! ## Drain processing order (claim C8) -/

/-- A space whose queue holds two equal-priority requests for distinct
cubes, and in which no recomputation changes any light value. -/
def tieSpace : LSpace :=
  { grid := ⟨(0, 0, 0), (2, 1, 1)⟩,
    evaluated := fun _ => ⟨false, Rgb.ZERO⟩,
    lighting := initLighting,
    queue := [⟨5, (0, 0, 0)⟩, ⟨5, (1, 0, 0)⟩],
    queuedSet := [(0, 0, 0), (1, 0, 0)], notifications := [],
    raycast := fun _ _ _ => [] }

theorem tieSpace_trace :
    (drainTrace 120 tieSpace).2 = [(⟨5, (1, 0, 0)⟩, 0), (⟨5, (0, 0, 0)⟩, 0)] := by
  have h1 : popMax tieSpace.queue = some (⟨5, (1, 0, 0)⟩, [⟨5, (0, 0, 0)⟩]) := by decide
  rw [show (120 : Nat) = 119 + 1 from rfl, drainTrace_succ 119 tieSpace _ _ h1]
  dsimp only
  rw [update_calm { tieSpace with queue := [⟨5, (0, 0, 0)⟩], queuedSet := tieSpace.queuedSet.erase (1, 0, 0) } (1, 0, 0) (fun c => rfl) rfl]
  dsimp only
  have h2 : popMax ([⟨5, (0, 0, 0)⟩] : List LightUpdateRequest) = some (⟨5, (0, 0, 0)⟩, []) :=
    rfl
  rw [show (119 : Nat) = 118 + 1 from rfl,
    drainTrace_succ 118 _ _ _ h2]
  dsimp only
  rw [update_calm _ (0, 0, 0) (fun c => rfl) rfl]
  dsimp only
  have h3 : ∀ s : LSpace, s.queue = [] → drainTrace 118 s = (s, []) := fun s hs =>
    drainTrace_none 118 s (by rw [hs]; rfl)
  rw [h3 _ rfl]

/-- Claim C8, counterexample to the claim as stated: with two pending
requests of equal priority 5 for cubes (0,0,0) and (1,0,0), the drain
processes (1,0,0) first even though (0,0,0) is lexicographically smaller —
equal-priority requests are popped in descending, not ascending,
lexicographic coordinate order (the `Ord` instance is consumed by a
max-heap). -/
theorem claim_C8_counterexample :
    (drainTrace 120 tieSpace).2.map Prod.fst =
      [⟨5, (1, 0, 0)⟩, ⟨5, (0, 0, 0)⟩] ∧
    cubeLexLt (0, 0, 0) (1, 0, 0) = true := by
  rw [tieSpace_trace]
  exact ⟨rfl, by decide⟩

theorem drainTrace_head_mem (b : Nat) (s : LSpace) (pr : LightUpdateRequest × Nat)
    (tail : List (LightUpdateRequest × Nat))
    (h : (drainTrace b s).2 = pr :: tail) : pr.1 ∈ s.queue := by
  cases b with
  | zero => simp [drainTrace] at h
  | succ b2 =>
    cases hp : popMax s.queue with
    | none => rw [drainTrace_none _ _ hp] at h; simp at h
    | some pp =>
      obtain ⟨req, rest⟩ := pp
      rw [drainTrace_succ b2 s req rest hp] at h
      dsimp only at h
      injection h with h1 h2
      rw [← h1]
      exact (popMax_perm hp).mem_iff.mpr (List.mem_cons_self req rest)

/-- Claim C8 (corrected): each pop takes a request that is maximal among
all pending requests under the order (priority, then lexicographic
coordinate); consequently, in a drain during which no processed cube's
light changes (so nothing new is enqueued mid-drain), the processed
sequence is descending in priority with equal-priority ties processed in
descending lexicographic coordinate order. -/
theorem claim_C8_amended :
    (∀ (l : List LightUpdateRequest) (r : LightUpdateRequest)
        (rest : List LightUpdateRequest), popMax l = some (r, rest) →
        ∀ x ∈ l, reqLt r x = false) ∧
    (∀ (budget : Nat) (s : LSpace),
      (∀ pr ∈ (drainTrace budget s).2, pr.2 = 0) →
      List.Chain' (fun a b => reqLt a b = false)
        ((drainTrace budget s).2.map Prod.fst)) := by
  refine ⟨fun l r rest hp => popMax_max hp, ?_⟩
  intro budget
  induction budget with
  | zero => intro s _; simp [drainTrace]
  | succ b ih =>
    intro s h
    cases hp : popMax s.queue with
    | none => rw [drainTrace_none _ _ hp]; simp
    | some pp =>
      obtain ⟨req, rest⟩ := pp
      rw [drainTrace_succ b s req rest hp] at h ⊢
      dsimp only at h ⊢
      have hd0 : (updateLightingNowOn { s with queue := rest, queuedSet := s.queuedSet.erase req.cube } req.cube).2 = 0 :=
        h _ (List.mem_cons_self _ _)
      have hup : updateLightingNowOn { s with queue := rest, queuedSet := s.queuedSet.erase req.cube } req.cube =
          ({ s with queue := rest, queuedSet := s.queuedSet.erase req.cube }, 0) :=
        update_of_diff_zero _ _ (by rw [← updateLightingNowOn_snd]; exact hd0)
      rw [hup] at h ⊢
      dsimp only at h ⊢
      rw [List.map_cons, List.chain'_cons']
      constructor
      · intro y hy
        cases hdt : (drainTrace b { s with queue := rest, queuedSet := s.queuedSet.erase req.cube }).2 with
        | nil => rw [hdt] at hy; simp at hy
        | cons pr2 tail2 =>
          rw [hdt] at hy
          simp only [List.map_cons, List.head?_cons, Option.mem_def, Option.some.injEq] at hy
          subst hy
          have hmem : pr2.1 ∈ rest := drainTrace_head_mem b _ pr2 tail2 hdt
          exact popMax_max hp pr2.1
            ((popMax_perm hp).mem_iff.mpr (List.mem_cons_of_mem req hmem))
      · exact ih _ (fun pr hpr => h pr (List.mem_cons_of_mem _ hpr))

/-- Claim C8, witness: the corrected ordering statement at the concrete
two-request space; the popped request ⟨5,(1,0,0)⟩ is maximal both in the
abstract sense and along the concrete processed sequence. -/
theorem claim_C8_amended_witness :
    (∀ x ∈ ([⟨5, (0, 0, 0)⟩, ⟨5, (1, 0, 0)⟩] : List LightUpdateRequest),
      reqLt ⟨5, (1, 0, 0)⟩ x = false) ∧
    List.Chain' (fun a b => reqLt a b = false)
      ((drainTrace 120 tieSpace).2.map Prod.fst) :=
  ⟨claim_C8_amended.1 [⟨5, (0, 0, 0)⟩, ⟨5, (1, 0, 0)⟩] ⟨5, (1, 0, 0)⟩ [⟨5, (0, 0, 0)⟩]
      (by decide),
   claim_C8_amended.2 120 tieSpace
      (by rw [tieSpace_trace]; intro pr hpr; simp at hpr; rcases hpr with h | h <;> rw [h])⟩

/-! ## Opaque cubes absorb all light (claim C6) -/

theorem lightAcc_dark (s : LSpace) (cube : GridPoint)
    (h : (s.evaluated cube).isOpaque = true) :
    lightAcc s cube = ⟨1, Rgb.ZERO, []⟩ := by
  rw [lightAcc, if_pos h]

theorem newLightValue_dark (s : LSpace) (cube : GridPoint)
    (h : (s.evaluated cube).isOpaque = true) :
    newLightValue s cube = ⟨0, 0, 0⟩ := by
  rw [newLightValue, lightAcc_dark s cube h]
  simp only [packRgb, Rgb.divNat, ratToU8, Rgb.ZERO]
  norm_num

theorem update_dark (s : LSpace) (cube : GridPoint)
    (h : (s.evaluated cube).isOpaque = true)
    (hd : 0 < differenceMagnitude ⟨0, 0, 0⟩ (s.lighting cube)) :
    updateLightingNowOn s cube =
      ({ s with lighting := fun c => if c = cube then ⟨0, 0, 0⟩ else s.lighting c, notifications := s.notifications ++ [cube] },
       differenceMagnitude ⟨0, 0, 0⟩ (s.lighting cube)) := by
  have hnew := newLightValue_dark s cube h
  have hdd : lightDiff s cube = differenceMagnitude ⟨0, 0, 0⟩ (s.lighting cube) := by
    rw [lightDiff, hnew]
  have hacc := lightAcc_dark s cube h
  simp only [updateLightingNowOn, hdd, hacc, hnew, if_pos hd, List.foldl_nil]

/-- The 1×1×1 scenario space: a single opaque cube with the default sky
light and the one pending request that setting the block issued (modelled
from the spec: a block change arrives as a `light_needs_update` call). -/
def scen1 : LSpace :=
  { grid := ⟨(0, 0, 0), (1, 1, 1)⟩,
    evaluated := fun _ => ⟨true, Rgb.ZERO⟩,
    lighting := initLighting,
    queue := [⟨255, (0, 0, 0)⟩], queuedSet := [(0, 0, 0)], notifications := [],
    raycast := fun _ _ _ => [] }

theorem scen1_props :
    (drainTrace 120 scen1).2 = [(⟨255, (0, 0, 0)⟩, 64)] ∧
    (drainTrace 120 scen1).1.lighting (0, 0, 0) = ⟨0, 0, 0⟩ := by
  rw [show (120 : Nat) = 119 + 1 from rfl,
    drainTrace_succ 119 scen1 ⟨255, (0, 0, 0)⟩ [] rfl]
  dsimp only
  rw [update_dark { scen1 with queue := [], queuedSet := scen1.queuedSet.erase (0, 0, 0) } (0, 0, 0) rfl (by decide)]
  dsimp only
  have h3 : ∀ s : LSpace, s.queue = [] → drainTrace 119 s = (s, []) := fun s hs =>
    drainTrace_none 119 s (by rw [hs]; rfl)
  rw [h3 _ rfl]
  exact ⟨by decide, by decide⟩

/-- Claim C6: for any opaque cube, the recompute uses the single degenerate
sample, so the candidate new value has all three quantized channels zero and
the returned difference is measured against it; in the 1×1×1 scenario one
drain call reports exactly one processed request and leaves the cube's
light fully absorbed. -/
theorem claim_C6 (s : LSpace) (cube : GridPoint)
    (h : (s.evaluated cube).isOpaque = true) :
    (updateLightingNowOn s cube).2 =
      differenceMagnitude ⟨0, 0, 0⟩ (s.lighting cube) ∧
    (0 < differenceMagnitude ⟨0, 0, 0⟩ (s.lighting cube) →
      (updateLightingNowOn s cube).1.lighting cube = ⟨0, 0, 0⟩) ∧
    (updateLightingFromQueue scen1).2.light_update_count = 1 ∧
    (updateLightingFromQueue scen1).1.lighting (0, 0, 0) = ⟨0, 0, 0⟩ ∧
    (updateLightingFromQueue scen1).2.max_light_update_difference = 64 := by
  refine ⟨?_, ?_, ?_, ?_, ?_⟩
  · rw [updateLightingNowOn_snd, lightDiff, newLightValue_dark s cube h]
  · intro hd
    rw [update_dark s cube h hd]
    simp
  · show (drainTrace 120 scen1).2.length = 1
    rw [scen1_props.1]
    rfl
  · show (drainTrace 120 scen1).1.lighting (0, 0, 0) = ⟨0, 0, 0⟩
    exact scen1_props.2
  · show ((drainTrace 120 scen1).2.map Prod.snd).foldl max 0 = 64
    rw [scen1_props.1]
    rfl

/-- Claim C6, witness: the opaque-cube statement instantiated at the
scenario space itself. -/
theorem claim_C6_witness :
    (updateLightingNowOn scen1 (0, 0, 0)).2 =
      differenceMagnitude ⟨0, 0, 0⟩ (scen1.lighting (0, 0, 0)) ∧
    (0 < differenceMagnitude ⟨0, 0, 0⟩ (scen1.lighting (0, 0, 0)) →
      (updateLightingNowOn scen1 (0, 0, 0)).1.lighting (0, 0, 0) = ⟨0, 0, 0⟩) ∧
    (updateLightingFromQueue scen1).2.light_update_count = 1 ∧
    (updateLightingFromQueue scen1).1.lighting (0, 0, 0) = ⟨0, 0, 0⟩ ∧
    (updateLightingFromQueue scen1).2.max_light_update_difference = 64 :=
  claim_C6 scen1 (0, 0, 0) rfl

/-! ## Ray strikes, contributions and dependencies (claim C2) -/

/-- A 2×1×1 space in which cube (1,0,0) is opaque with red light emission 2
and a single ray from cube (0,0,0) strikes it; the remaining 53 rays are
clipped to nothing and exit immediately. -/
def hitSpace : LSpace :=
  { grid := ⟨(0, 0, 0), (2, 1, 1)⟩,
    evaluated := fun p => if p = ((1 : Int), (0 : Int), (0 : Int)) then ⟨true, ⟨2, 0, 0⟩⟩ else ⟨false, Rgb.ZERO⟩,
    lighting := initLighting,
    queue := [], queuedSet := [], notifications := [],
    raycast := fun c f r => if c = ((0 : Int), (0 : Int), (0 : Int)) ∧ f = 0 ∧ r = 0 then [⟨(1, 0, 0), (0, 0, 0)⟩] else [] }

theorem hitSpace_paths : updateRayPaths hitSpace (0, 0, 0) =
    [⟨(1, 0, 0), (0, 0, 0)⟩] :: List.replicate 53 [] := by decide

theorem initRgb_eq : rgbOfPacked PackedLight.INITIAL = ⟨1, 1, 1⟩ := skyRgb_eq

theorem Rgb.add_mk (a b c d e f : ℚ) :
    Rgb.mk a b c + Rgb.mk d e f = ⟨a + d, b + e, c + f⟩ := rfl

theorem foldl_processRay_nilpaths (s : LSpace) : ∀ (n : Nat) (acc : RayAcc),
    (List.replicate n ([] : List RaycastStep)).foldl (processRay s) acc =
      ⟨acc.totalRays + n,
       ⟨acc.incoming.red + n, acc.incoming.green + n, acc.incoming.blue + n⟩,
       acc.deps⟩ := by
  intro n
  induction n with
  | zero => intro acc; simp
  | succ m ih =>
    intro acc
    rw [List.replicate_succ, List.foldl_cons]
    have hstep : processRay s acc [] =
        ⟨acc.totalRays + 1, acc.incoming + rgbOfPacked PackedLight.SKY, acc.deps⟩ := by
      rw [processRay]
      rfl
    rw [hstep, ih, skyRgb_eq]
    simp only [RayAcc.mk.injEq, Rgb.mk.injEq, and_true,
      Rgb.add_red, Rgb.add_green, Rgb.add_blue]
    refine ⟨by omega, by push_cast; ring, by push_cast; ring, by push_cast; ring⟩

theorem hitSpace_acc : lightAcc hitSpace (0, 0, 0) = ⟨54, ⟨56, 54, 54⟩, [(0, 0, 0)]⟩ := by
  rw [lightAcc, if_neg (by decide), gatherRays, hitSpace_paths, List.foldl_cons]
  have hfirst : processRay hitSpace ⟨0, Rgb.ZERO, []⟩ [⟨(1, 0, 0), (0, 0, 0)⟩] =
      ⟨1, ⟨3, 1, 1⟩, [(0, 0, 0)]⟩ := by
    rw [processRay,
      show traceRayAux hitSpace [⟨(1, 0, 0), (0, 0, 0)⟩] = some ((1, 0, 0), (0, 0, 0)) from by decide]
    dsimp only
    have hemi : (hitSpace.evaluated (1, 0, 0)).light_emission = ⟨2, 0, 0⟩ := by decide
    have hlig : hitSpace.lighting (0, 0, 0) = PackedLight.INITIAL := rfl
    rw [hemi, hlig, initRgb_eq]
    simp only [RayAcc.mk.injEq, Rgb.ZERO, and_true, List.nil_append,
      Rgb.add_mk, Rgb.mk.injEq]
    norm_num
  rw [hfirst, foldl_processRay_nilpaths]
  simp only [RayAcc.mk.injEq, Rgb.mk.injEq, and_true]
  norm_num

theorem hitSpace_diff : lightDiff hitSpace (0, 0, 0) = 2 := by
  rw [lightDiff, newLightValue, hitSpace_acc]
  have hf1 : ((56 : ℚ) / ((54 : Nat) : ℚ)) * 64 = 1792 / 27 := by norm_num
  have hf2 : ⌊(1792 : ℚ) / 27⌋ = 66 := by norm_num [Int.floor_eq_iff]
  have hf3 : ((54 : ℚ) / ((54 : Nat) : ℚ)) * 64 = 64 := by norm_num
  have hpack : packRgb (Rgb.divNat ⟨56, 54, 54⟩ 54) = ⟨66, 64, 64⟩ := by
    simp only [packRgb, Rgb.divNat, ratToU8, hf1, hf2, hf3]
    norm_num
    decide
  rw [hpack]
  decide

theorem hitSpace_queue :
    (updateLightingNowOn hitSpace (0, 0, 0)).1.queue = [⟨2, (0, 0, 0)⟩] := by
  simp only [updateLightingNowOn, hitSpace_diff, hitSpace_acc]
  norm_num [lightNeedsUpdate, Grid.containsCube, hitSpace]

/-- Claim C2, counterexample to the claim as stated: the single ray from
(0,0,0) strikes the opaque cube (1,0,0), yet the dependency recorded (and
subsequently enqueued, here with priority 2) is the previous cube (0,0,0)
— `dependencies.push(light_cube)` pushes `hit.previous_cube()`, not the
struck cube, which does not appear in the queue. -/
theorem claim_C2_counterexample :
    traceRayAux hitSpace [⟨(1, 0, 0), (0, 0, 0)⟩] = some ((1, 0, 0), (0, 0, 0)) ∧
    (hitSpace.evaluated (1, 0, 0)).isOpaque = true ∧
    (lightAcc hitSpace (0, 0, 0)).deps = [(0, 0, 0)] ∧
    (updateLightingNowOn hitSpace (0, 0, 0)).1.queue = [⟨2, (0, 0, 0)⟩] ∧
    ((1, 0, 0) ∉ (updateLightingNowOn hitSpace (0, 0, 0)).1.queue.map
      LightUpdateRequest.cube) := by
  refine ⟨by decide, by decide, ?_, hitSpace_queue, ?_⟩
  · rw [hitSpace_acc]
  · rw [hitSpace_queue]
    decide

theorem traceRayAux_strike (s : LSpace) : ∀ (path : List RaycastStep) (hit prev : GridPoint),
    traceRayAux s path = some (hit, prev) → (s.evaluated hit).isOpaque = true := by
  intro path
  induction path with
  | nil => intro hit prev h; simp [traceRayAux] at h
  | cons st rest ih =>
    intro hit prev h
    rw [traceRayAux] at h
    by_cases hop : (s.evaluated st.cube).isOpaque = true
    · rw [if_pos hop] at h
      injection h with h1
      obtain ⟨rfl, rfl⟩ := Prod.mk.injEq .. ▸ h1
      exact hop
    · rw [if_neg hop] at h
      exact ih hit prev h

theorem lightNeedsUpdate_grid (st : LSpace) (c : GridPoint) (p : Nat) :
    (lightNeedsUpdate st c p).grid = st.grid := by
  rw [lightNeedsUpdate]
  split <;> rfl

theorem lightNeedsUpdate_set_mono (st : LSpace) (c : GridPoint) (p : Nat) (x : GridPoint)
    (h : x ∈ st.queuedSet) : x ∈ (lightNeedsUpdate st c p).queuedSet := by
  rw [lightNeedsUpdate]
  split
  · exact List.mem_cons_of_mem c h
  · exact h

theorem lightNeedsUpdate_queue_mono (st : LSpace) (c : GridPoint) (p : Nat)
    (x : LightUpdateRequest) (h : x ∈ st.queue) : x ∈ (lightNeedsUpdate st c p).queue := by
  rw [lightNeedsUpdate]
  split
  · exact List.mem_cons_of_mem _ h
  · exact h

theorem lightNeedsUpdate_set_self (st : LSpace) (c : GridPoint) (p : Nat)
    (hin : st.grid.containsCube c = true) : c ∈ (lightNeedsUpdate st c p).queuedSet := by
  by_cases hset : c ∈ st.queuedSet
  · exact lightNeedsUpdate_set_mono st c p c hset
  · rw [lightNeedsUpdate_push st c p hin hset]
    exact List.mem_cons_self _ _

theorem lightNeedsUpdate_queue_self (st : LSpace) (c : GridPoint) (p : Nat)
    (hin : st.grid.containsCube c = true) (hset : c ∉ st.queuedSet) :
    (⟨p, c⟩ : LightUpdateRequest) ∈ (lightNeedsUpdate st c p).queue := by
  rw [lightNeedsUpdate_push st c p hin hset]
  exact List.mem_cons_self _ _

theorem lightNeedsUpdate_set_superset (st : LSpace) (a : GridPoint) (p : Nat) (x : GridPoint)
    (h : x ∈ (lightNeedsUpdate st a p).queuedSet) : x = a ∨ x ∈ st.queuedSet := by
  rw [lightNeedsUpdate] at h
  split at h
  · rcases List.mem_cons.mp h with rfl | h2
    · exact .inl rfl
    · exact .inr h2
  · exact .inr h

theorem foldl_set_mono (d : Nat) : ∀ (as : List GridPoint) (st : LSpace) (x : GridPoint),
    x ∈ st.queuedSet → x ∈ (as.foldl (fun st2 c2 => lightNeedsUpdate st2 c2 d) st).queuedSet := by
  intro as
  induction as with
  | nil => intro st x h; exact h
  | cons a as2 ih =>
    intro st x h
    exact ih _ x (lightNeedsUpdate_set_mono st a d x h)

theorem foldl_queue_mono (d : Nat) : ∀ (as : List GridPoint) (st : LSpace)
    (x : LightUpdateRequest), x ∈ st.queue →
    x ∈ (as.foldl (fun st2 c2 => lightNeedsUpdate st2 c2 d) st).queue := by
  intro as
  induction as with
  | nil => intro st x h; exact h
  | cons a as2 ih =>
    intro st x h
    exact ih _ x (lightNeedsUpdate_queue_mono st a d x h)

theorem foldl_enqueue_mem (d : Nat) : ∀ (deps : List GridPoint) (st : LSpace) (c : GridPoint),
    c ∈ deps → st.grid.containsCube c = true →
    c ∈ (deps.foldl (fun st2 c2 => lightNeedsUpdate st2 c2 d) st).queuedSet ∧
    (c ∉ st.queuedSet →
      (⟨d, c⟩ : LightUpdateRequest) ∈
        (deps.foldl (fun st2 c2 => lightNeedsUpdate st2 c2 d) st).queue) := by
  intro deps
  induction deps with
  | nil => intro st c hc _; simp at hc
  | cons a as ih =>
    intro st c hc hin
    rw [List.foldl_cons]
    by_cases hca : c = a
    · subst hca
      refine ⟨foldl_set_mono d as _ c (lightNeedsUpdate_set_self st c d hin), fun hset =>
        foldl_queue_mono d as _ _ (lightNeedsUpdate_queue_self st c d hin hset)⟩
    · rcases List.mem_cons.mp hc with rfl | has
      · exact absurd rfl hca
      · have hin2 : (lightNeedsUpdate st a d).grid.containsCube c = true := by
          rw [lightNeedsUpdate_grid]
          exact hin
        have hih := ih (lightNeedsUpdate st a d) c has hin2
        refine ⟨hih.1, fun hset => hih.2 (fun hmem => ?_)⟩
        rcases lightNeedsUpdate_set_superset st a d c hmem with h1 | h1
        · exact hca h1
        · exact hset h1

/-- Claim C2 (corrected): for every ray that strikes an opaque cube, the
contribution accumulated is the struck cube's light emission plus the
previous (non-opaque) cube's currently-stored light value, and it is that
previous cube — not the struck cube — that is recorded as a dependency;
when the quantized difference is nonzero, every recorded in-bounds
dependency ends up marked queued, and (unless it was already queued) a
request for it with priority equal to the difference magnitude is in the
queue. -/
theorem claim_C2_amended :
    (∀ (s : LSpace) (acc : RayAcc) (path : List RaycastStep) (hit prev : GridPoint),
      traceRayAux s path = some (hit, prev) →
      (s.evaluated hit).isOpaque = true ∧
      processRay s acc path =
        ⟨acc.totalRays + 1,
         acc.incoming + ((s.evaluated hit).light_emission + rgbOfPacked (s.lighting prev)),
         acc.deps ++ [prev]⟩) ∧
    (∀ (s : LSpace) (cube c : GridPoint),
      0 < (updateLightingNowOn s cube).2 →
      c ∈ (lightAcc s cube).deps →
      s.grid.containsCube c = true →
      c ∈ (updateLightingNowOn s cube).1.queuedSet ∧
      (c ∉ s.queuedSet →
        (⟨(updateLightingNowOn s cube).2, c⟩ : LightUpdateRequest) ∈
          (updateLightingNowOn s cube).1.queue)) := by
  constructor
  · intro s acc path hit prev h
    refine ⟨traceRayAux_strike s path hit prev h, ?_⟩
    rw [processRay, h]
  · intro s cube c hd hdep hin
    rw [updateLightingNowOn_snd] at hd
    have hbr : updateLightingNowOn s cube =
        ((lightAcc s cube).deps.foldl (fun st c2 => lightNeedsUpdate st c2 (lightDiff s cube)) { s with lighting := fun c2 => if c2 = cube then newLightValue s cube else s.lighting c2, notifications := s.notifications ++ [cube] }, lightDiff s cube) := by
      rw [updateLightingNowOn, if_pos hd]
    rw [hbr]
    exact foldl_enqueue_mem (lightDiff s cube) (lightAcc s cube).deps _ c hdep hin

/-- Claim C2, witness: both corrected statements at the concrete
`hitSpace`: the single strike contributes emission(1,0,0) plus the stored
light of (0,0,0), records (0,0,0), and the nonzero difference 2 enqueues
(0,0,0) at priority 2. -/
theorem claim_C2_amended_witness :
    ((hitSpace.evaluated (1, 0, 0)).isOpaque = true ∧
      processRay hitSpace ⟨0, Rgb.ZERO, []⟩ [⟨(1, 0, 0), (0, 0, 0)⟩] =
        ⟨0 + 1,
         Rgb.ZERO + ((hitSpace.evaluated (1, 0, 0)).light_emission +
           rgbOfPacked (hitSpace.lighting (0, 0, 0))),
         [] ++ [(0, 0, 0)]⟩) ∧
    ((0, 0, 0) ∈ (updateLightingNowOn hitSpace (0, 0, 0)).1.queuedSet ∧
      ((0, 0, 0) ∉ hitSpace.queuedSet →
        (⟨(updateLightingNowOn hitSpace (0, 0, 0)).2, (0, 0, 0)⟩ : LightUpdateRequest) ∈
          (updateLightingNowOn hitSpace (0, 0, 0)).1.queue)) :=
  ⟨claim_C2_amended.1 hitSpace ⟨0, Rgb.ZERO, []⟩ [⟨(1, 0, 0), (0, 0, 0)⟩] (1, 0, 0) (0, 0, 0)
      (by decide),
   claim_C2_amended.2 hitSpace (0, 0, 0) (0, 0, 0)
      (by rw [updateLightingNowOn_snd, hitSpace_diff]; decide)
      (by rw [hitSpace_acc]; exact List.mem_singleton.mpr rfl)
      (by decide)⟩

/-! ## BlockDef mutation episodes notify exactly once (claim C5) -/

theorem count_notified_zero (l : Nat) : ∀ (ls : List Nat), l ∉ ls →
    ((ls.map BlockDefEvent.notified).filter
      (fun e => decide (e = BlockDefEvent.notified l))).length = 0 := by
  intro ls
  induction ls with
  | nil => intro _; rfl
  | cons a as ih =>
    intro h
    have h2 : l ∉ as := fun hm => h (List.mem_cons_of_mem a hm)
    have h1 : a ≠ l := fun hc => h (by rw [← hc]; exact List.mem_cons_self a as)
    simp only [List.map_cons, List.filter_cons]
    rw [if_neg (by simp [h1])]
    exact ih h2

theorem count_notified_one (l : Nat) : ∀ (ls : List Nat), ls.Nodup → l ∈ ls →
    ((ls.map BlockDefEvent.notified).filter
      (fun e => decide (e = BlockDefEvent.notified l))).length = 1 := by
  intro ls
  induction ls with
  | nil => intro _ h; simp at h
  | cons a as ih =>
    intro hn hm
    have hhead : a ∉ as := (List.nodup_cons.mp hn).1
    simp only [List.map_cons, List.filter_cons]
    rcases List.mem_cons.mp hm with rfl | hmem
    · rw [if_pos (by simp), List.length_cons, count_notified_zero l as hhead]
    · have h1 : a ≠ l := fun hc => hhead (by rw [hc]; exact hmem)
      rw [if_neg (by simp [h1])]
      exact ih (List.nodup_cons.mp hn).2 hmem

/-- Claim C5: one completed mutation episode through the scoped handle
produces, regardless of how many field writes occurred while it was held,
the rebuild of the forwarding subscription against the new inner block
followed by exactly one change notification to each direct listener of the
definition. -/
theorem claim_C5 (d : BlockDefM) (writes : List (Block → Block)) (l : Nat)
    (hl : l ∈ d.listeners) (hn : d.listeners.Nodup) :
    (modifyEpisode d writes).2 =
      BlockDefEvent.resubscribed (writes.foldl (fun b f => f b) d.block) ::
        d.listeners.map BlockDefEvent.notified ∧
    ((modifyEpisode d writes).2.filter
      (fun e => decide (e = BlockDefEvent.notified l))).length = 1 := by
  refine ⟨rfl, ?_⟩
  show ((BlockDefEvent.resubscribed (writes.foldl (fun b f => f b) d.block) ::
      d.listeners.map BlockDefEvent.notified).filter
      (fun e => decide (e = BlockDefEvent.notified l))).length = 1
  rw [List.filter_cons, if_neg (by simp)]
  exact count_notified_one l d.listeners hn hl

/-- A block definition with two direct listeners, for the C5 witness. -/
def defC5 : BlockDefM := ⟨Block.Atom DEFAULT_ATTRIBUTES Rgba.TRANSPARENT, [0, 1]⟩

/-- Two field writes in one mutation episode, for the C5 witness. -/
def writesC5 : List (Block → Block) :=
  [fun _ => Block.Atom DEFAULT_ATTRIBUTES ⟨0, 0, 0, 1⟩, fun b => b]

/-- Claim C5, witness: a two-write episode on a definition with two
listeners delivers the resubscription first and exactly one notification
to listener 0. -/
theorem claim_C5_witness :
    (modifyEpisode defC5 writesC5).2 =
      BlockDefEvent.resubscribed (writesC5.foldl (fun b f => f b) defC5.block) ::
        defC5.listeners.map BlockDefEvent.notified ∧
    ((modifyEpisode defC5 writesC5).2.filter
      (fun e => decide (e = BlockDefEvent.notified 0))).length = 1 :=
  claim_C5 defC5 writesC5 0 (by decide) (by decide)
